import Mathlib

/-!
# Verification of `liamcurry/domains`

A shallow embedding of `domains.go` and the properties of its three layers:

* the transport primitive `Whois` (one TCP exchange on port 43),
* the fan-out engine `WhoisChecker.WhoisAny` (one goroutine per server, an
  unbuffered channel, a one second timer),
* the composite policy `MultiChecker` / `NewChecker` and the DNS probe.

Go `string` and `[]byte` values are byte sequences; both are `List UInt8` here,
so the conversions `[]byte(s)` and `string(b)` are the identity.  Everything
outside the program (the network, the `nslookup` command, the goroutine
scheduler and the clock) is an explicit argument.
-/

namespace Domains

/-! ## Go values -/

/-- Go `[]byte`; the nil slice is the empty list. -/
abbrev Bytes := List UInt8

/-- Go `string`: an immutable byte sequence. -/
abbrev GoString := List UInt8

/-- A Go string literal (Go source text is UTF-8). -/
def str (s : String) : GoString := s.toUTF8.data.toList

/-- Go `error` values that are not nil; `Option Error` is the Go type `error`. -/
abbrev Error := String

/-! ## `strings.Contains` -/

/-- Go `strings.Contains(s, substr)`: `substr` occurs in `s` at some offset. -/
def Contains : GoString → GoString → Bool
  | [], substr => substr.isEmpty
  | c :: s, substr => substr.isPrefixOf (c :: s) || Contains s substr

/-! ## The network, as seen by `Whois` -/

/-- A connection returned by `net.Dial`, described by what the program can
observe of it.  `write p` is the error result of `conn.Write(p)`.  After `sent`
has been written, successive `conn.Read` calls deliver the chunks `reads sent`
and then end with `io.EOF` (`readEnd sent = none`, the peer closed) or with a
read error. -/
structure Conn where
  write : Bytes → Option Error
  reads : Bytes → List Bytes
  readEnd : Bytes → Option Error

/-- Go `ioutil.ReadAll(conn)`: reads until an error or EOF and returns the data it
read; a successful call returns a nil error, not `io.EOF`. -/
def ReadAll (conn : Conn) (sent : Bytes) : Bytes × Option Error :=
  ((conn.reads sent).flatten, conn.readEnd sent)

/-- The network: `net.Dial(network, address)`. -/
structure Net where
  dial : GoString → GoString → Except Error Conn

/-- What one call of `Whois` does to the network, in program order. -/
inductive NetEvent
  | dial (network address : GoString) (ok : Bool)
  | write (p : Bytes)
  | readAll
  | close
  deriving DecidableEq

/-- The two results of a `Whois` call and the network operations it performed. -/
structure WhoisRun where
  res : Bytes
  err : Option Error
  trace : List NetEvent

/-- Go `func Whois(domain, server string) ([]byte, error)`. -/
def Whois (net : Net) (domain server : GoString) : WhoisRun :=
  match net.dial (str "tcp") (server ++ str ":43") with
  | .error e =>
    -- if err != nil { return nil, err }
    { res := [], err := some e,
      trace := [.dial (str "tcp") (server ++ str ":43") false] }
  | .ok conn =>
    -- defer conn.Close()
    match conn.write (domain ++ str "\r\n") with
    | some e =>
      -- if err != nil { return nil, err }
      { res := [], err := some e,
        trace := [.dial (str "tcp") (server ++ str ":43") true,
                  .write (domain ++ str "\r\n"), .close] }
    | none =>
      -- return ioutil.ReadAll(conn)
      { res := (ReadAll conn (domain ++ str "\r\n")).1,
        err := (ReadAll conn (domain ++ str "\r\n")).2,
        trace := [.dial (str "tcp") (server ++ str ":43") true,
                  .write (domain ++ str "\r\n"), .readAll, .close] }

/-- Number of connections a trace opens. -/
def opened (t : List NetEvent) : Nat :=
  (t.filter fun e => match e with | .dial _ _ true => true | _ => false).length

/-- Number of `conn.Close()` calls in a trace. -/
def closed (t : List NetEvent) : Nat :=
  (t.filter fun e => match e with | .close => true | _ => false).length

/-! ## The fan-out engine -/

/-- Go `type WhoisChecker struct { servers []string }`. -/
structure WhoisChecker where
  servers : List GoString

/-- Go `func NewWhoisChecker(servers []string) *WhoisChecker`. -/
def NewWhoisChecker (servers : List GoString) : WhoisChecker := ⟨servers⟩

/-- Go `isTakenThreshold = 3000`: any more than this means it is probably a valid
whois and unavailable. -/
def isTakenThreshold : Nat := 3000

/-- Go `notFoundText = "No match"`: if whois has this text it is unavailable. -/
def notFoundText : GoString := str "No match"

/-- The test `find` applies to a response before it publishes it:
`len(res) > isTakenThreshold && !strings.Contains(string(res), notFoundText)`. -/
def conclusive (res : Bytes) : Bool :=
  decide (res.length > isTakenThreshold) && !Contains res notFoundText

/-- Go `time.Second`, in nanoseconds (the unit of `time.Duration`). -/
def Second : Nat := 1000000000

/-- Where the goroutine `find(i)` is. -/
inductive Task
  | unspawned   -- `go find(i)` has not been executed
  | running     -- inside `Whois(domain, w.servers[i])`
  | blocked     -- parked in `found <- res`
  | delivered   -- `found <- res` completed, `find` returned
  | exited      -- `find` returned without sending
  deriving DecidableEq

/-- Where the goroutine that called `WhoisAny` is. -/
inductive Coord
  /-- In `for i := range w.servers`, about to run iteration `i`. -/
  | spawning (i : Nat)
  /-- Parked in the `select`; the timer of `time.After` is due at `deadline`. -/
  | waiting (deadline : Nat)
  /-- The call of `WhoisAny` returned `res` at time `time`, through the timer branch when
  `timedOut` and through `case res := <-found` otherwise. -/
  | returned (res : Bytes) (timedOut : Bool) (deadline time : Nat)
  deriving DecidableEq

/-- One `WhoisAny` call in progress.  `sendq` is the queue of senders parked on
the unbuffered channel `found`, each with the value it is sending, in arrival
order (the runtime serves a channel's parked senders first come first served).
`now` is the clock, in nanoseconds since the call began. -/
structure State where
  coord : Coord
  tasks : List Task
  sendq : List (Nat × Bytes)
  now : Nat
  deriving DecidableEq

/-- What the scheduler, the network and the clock can make happen next. -/
inductive Event
  /-- The caller runs one iteration `go find(i)` of the loop. -/
  | spawn
  /-- The caller leaves the loop and executes the `select`. -/
  | select
  /-- The call of `Whois` returns in `find(i)`, which then runs up to its `return` or its
  send on `found`. -/
  | complete (i : Nat)
  /-- Time passes. -/
  | advance (dt : Nat)
  /-- The timer channel of `time.After(1 * time.Second)` delivers. -/
  | fire
  deriving DecidableEq

/-- The state at the call of `WhoisAny` with `n` servers:
`found := make(chan []byte)`, no goroutine started. -/
def State.init (n : Nat) : State :=
  { coord := .spawning 0, tasks := List.replicate n .unspawned, sendq := [], now := 0 }

/-- One transition.  `n` is `len(w.servers)` and `resp i` the two results of
`Whois(domain, w.servers[i])`.  An event that cannot happen in `s` leaves `s`
unchanged. -/
def step (n : Nat) (resp : Nat → Bytes × Option Error) (s : State) : Event → State
  | .spawn =>
    match s.coord with
    | .spawning i =>
      if i < n then { s with coord := .spawning (i + 1), tasks := s.tasks.set i .running }
      else s
    | _ => s
  | .select =>
    match s.coord with
    | .spawning i =>
      if i < n then s
      else
        -- `time.After` is evaluated on entry, then the cases are polled: a
        -- parked sender makes `<-found` ready, the new timer is not.
        match s.sendq with
        | [] => { s with coord := .waiting (s.now + 1 * Second) }
        | (j, res) :: q =>
          { s with coord := .returned res false (s.now + 1 * Second) s.now,
                   tasks := s.tasks.set j .delivered, sendq := q }
    | _ => s
  | .complete i =>
    match s.tasks[i]? with
    | some .running =>
      if (resp i).2.isSome then
        -- if err != nil { return }
        { s with tasks := s.tasks.set i .exited }
      else if conclusive (resp i).1 then
        -- found <- res
        match s.coord with
        | .waiting d =>
          { s with coord := .returned (resp i).1 false d s.now,
                   tasks := s.tasks.set i .delivered }
        | _ => { s with tasks := s.tasks.set i .blocked, sendq := s.sendq ++ [(i, (resp i).1)] }
      else { s with tasks := s.tasks.set i .exited }
    | _ => s
  | .advance dt => { s with now := s.now + dt }
  | .fire =>
    match s.coord with
    | .waiting d =>
      if d ≤ s.now then { s with coord := .returned [] true d s.now } else s
    | _ => s

/-- The state after the events of a schedule, in order. -/
def run (n : Nat) (resp : Nat → Bytes × Option Error) (s : State) (sched : List Event) : State :=
  sched.foldl (step n resp) s

/-- The time the caller still has to wait for its timer, when it is parked. -/
def State.remaining (s : State) : Nat :=
  match s.coord with
  | .waiting d => d - s.now
  | _ => 0

/-- The rest of the call when nothing else happens: the caller finishes the
loop and executes the `select`; if it parks there, its timer eventually
delivers. -/
def finish (n : Nat) (resp : Nat → Bytes × Option Error) (s : State) : State :=
  let s1 := run n resp s (List.replicate n .spawn ++ [.select])
  run n resp s1 [.advance s1.remaining, .fire]

/-- The value a finished call returned. -/
def State.result (s : State) : Bytes :=
  match s.coord with
  | .returned res _ _ _ => res
  | _ => []

/-- The responses the goroutines of `w.WhoisAny(domain)` get. -/
def WhoisChecker.resp (w : WhoisChecker) (net : Net) (domain : GoString) (i : Nat) :
    Bytes × Option Error :=
  ((Whois net domain (w.servers.getD i [])).res, (Whois net domain (w.servers.getD i [])).err)

/-- The state of `w.WhoisAny(domain)` after the scheduler, the network and the
clock have produced the events `sched`. -/
def WhoisChecker.reach (w : WhoisChecker) (net : Net) (domain : GoString) (sched : List Event) :
    State :=
  run w.servers.length (w.resp net domain) (State.init w.servers.length) sched

/-- The final state of `w.WhoisAny(domain)` when the scheduler, the network and
the clock produce the events `sched` and nothing else happens before the call
returns. -/
def WhoisChecker.exec (w : WhoisChecker) (net : Net) (sched : List Event) (domain : GoString) :
    State :=
  finish w.servers.length (w.resp net domain) (w.reach net domain sched)

/-- Go `func (w *WhoisChecker) WhoisAny(domain string) []byte`. -/
def WhoisChecker.WhoisAny (w : WhoisChecker) (net : Net) (sched : List Event)
    (domain : GoString) : Bytes :=
  (w.exec net sched domain).result

/-- Go `func (w *WhoisChecker) IsTaken(domain string) bool`. -/
def WhoisChecker.IsTaken (w : WhoisChecker) (net : Net) (sched : List Event)
    (domain : GoString) : Bool :=
  decide ((w.WhoisAny net sched domain).length > 0)

/-! ## The DNS probe -/

/-- Everything outside the program: the commands that can be executed
(`exec.Command(name, arg).CombinedOutput()` gives the combined output and an
error), the network, and the events of the fan-out round of a query. -/
structure World where
  command : GoString → GoString → Bytes × Option Error
  net : Net
  sched : List Event

/-- Go `func NSLookup(domain string) ([]byte, error)`. -/
def NSLookup (world : World) (domain : GoString) : Bytes × Option Error :=
  world.command (str "nslookup") domain

/-- Go `func NSLookupChecker(domain string) bool`. -/
def NSLookupChecker (world : World) (domain : GoString) : Bool :=
  match (NSLookup world domain).2 with
  | some _ => false
  | none => Contains (NSLookup world domain).1 (str "Non-authoritative answer")

/-! ## Checkers and the composite policy -/

/-- Go `type Checker interface { IsTaken(domain string) bool }`.  A call of the
method gives `some b` when it returns `b` and `none` when it panics. -/
structure Checker where
  IsTaken : GoString → Option Bool

/-- Go `type CheckerFunc func(domain string) bool` with its method
`func (c CheckerFunc) IsTaken(domain string) bool { return c(domain) }`. -/
def CheckerFunc (c : GoString → Option Bool) : Checker := ⟨fun domain => c domain⟩

/-- A Go function that always returns, as a function value. -/
def returning (p : GoString → Bool) : GoString → Option Bool := fun domain => some (p domain)

/-- The type `*WhoisChecker` as a `Checker`, through its method `IsTaken`. -/
def WhoisChecker.toChecker (w : WhoisChecker) (world : World) : Checker :=
  ⟨returning (w.IsTaken world.net world.sched)⟩

/-- Go `type MultiChecker struct { checkers []Checker }`. -/
structure MultiChecker where
  checkers : List Checker

/-- A call of `MultiChecker.IsTaken`: the positions, in `m.checkers`, of the
checkers it invoked, in invocation order, and what the call returned (`none`
when a checker panicked). -/
structure Invocation where
  invoked : List Nat
  value : Option Bool
  deriving DecidableEq

/-- The loop `for _, checker := range m.checkers`, from position `i` on. -/
def MultiChecker.loop (domain : GoString) : List Checker → Nat → Invocation
  | [], _ => ⟨[], some false⟩
  | checker :: rest, i =>
    match checker.IsTaken domain with
    | none => ⟨[i], none⟩
    | some true => ⟨[i], some true⟩
    | some false =>
      ⟨i :: (MultiChecker.loop domain rest (i + 1)).invoked,
        (MultiChecker.loop domain rest (i + 1)).value⟩

/-- Go `func (m *MultiChecker) IsTaken(domain string) bool`, with the checkers it
invoked. -/
def MultiChecker.call (m : MultiChecker) (domain : GoString) : Invocation :=
  MultiChecker.loop domain m.checkers 0

/-- Go `func (m *MultiChecker) IsTaken(domain string) bool`. -/
def MultiChecker.IsTaken (m : MultiChecker) (domain : GoString) : Option Bool :=
  (m.call domain).value

/-- Go `func (m *MultiChecker) Checker(c Checker)`. -/
def MultiChecker.Checker (m : MultiChecker) (c : Domains.Checker) : MultiChecker :=
  ⟨m.checkers ++ [c]⟩

/-- Go `func (m *MultiChecker) CheckerFunc(fn func(domain string) bool)`. -/
def MultiChecker.CheckerFunc (m : MultiChecker) (fn : GoString → Option Bool) : MultiChecker :=
  ⟨m.checkers ++ [Domains.CheckerFunc fn]⟩

/-- Go `var DefaultServers = []string{...}`. -/
def DefaultServers : List GoString :=
  [str "whois.findyouaname.com",
   str "whois.godomaingo.com",
   str "whois.finduaname.com",
   str "whois.namestrategies.com",
   str "whois.nameshere.com",
   str "whois.evonames.com",
   str "whois.noticeddomains.com",
   str "whois.fabulous.com",
   str "whois.tradenamed.com",
   str "whois.heavydomains.net",
   str "whois.namearsenal.com",
   str "whois.namevolcano.com",
   str "whois.gatekeeperdomains.net",
   str "whois.goserveyourdomain.com",
   str "whois.namesalacarte.com",
   str "whois.lakeodomains.com",
   str "whois.namesystem.com",
   str "whois.netdorm.com",
   str "whois.domainraker.net",
   str "whois.enomtoo.com",
   str "whois.enomnz.com",
   str "whois.enomworld.com",
   str "whois.enomten.com",
   str "whois.enomx.com",
   str "whois.domainclub.com",
   str "whois.dyndns.com",
   str "whois.namesilo.com",
   str "whois.namethread.com",
   str "whois.namenelly.com",
   str "whois.fushitarazu.com",
   str "whois.sssasss.com",
   str "whois.enom423.com",
   str "whois.exai.com",
   str "whois.enom431.com",
   str "whois.gochinadomains.com",
   str "whois.initialesonline.net",
   str "whois.namestream.com",
   str "whois.ownidentity.com",
   str "whois.nictrade.se",
   str "whois.nominate.net",
   str "whois.net-chinese.com.tw",
   str "whois.gandi.net",
   str "whois.star-domain.jp",
   str "whois.subreg.cz",
   str "whois.namesay.com",
   str "whois.maprilis.com.vn",
   str "whois.gofrancedomains.com",
   str "whois.paknic.com",
   str "whois.ssandomain.com",
   str "whois.omnis.com",
   str "whois.netim.com",
   str "whois.eurotrashnames.com",
   str "whois.networking4all.com",
   str "whois.ipmirror.com",
   str "whois.nawang.cn",
   str "whois.iisp.com",
   str "whois.domaindelights.com",
   str "whois.nameturn.com",
   str "whois.domainarmada.com",
   str "whois.gradeadomainnames.com",
   str "whois.domaincentre.ca",
   str "whois.hawthornedomains.com",
   str "whois.domaincomesaround.com",
   str "whois.domaininthebasket.com",
   str "whois.domaincapitan.com",
   str "whois.domaingazelle.com",
   str "whois.gungagalunga.biz",
   str "whois.planetdomain.com",
   str "whois.nayana.com",
   str "whois.net4domains.com",
   str "whois.ksdom.kr",
   str "whois.softlayer.com",
   str "whois.getyername.com",
   str "whois.oldtowndomains.com",
   str "whois.oregonurls.com",
   str "whois.ibi.net",
   str "whois.insanenames.com",
   str "whois.domainprime.com",
   str "whois.worthydomains.com",
   str "whois.jetpackdomains.com",
   str "whois.webmasters.com",
   str "whois.domainsofvalue.com",
   str "whois.nerdnames.com",
   str "whois.enom421.com",
   str "whois.worldbizdomains.com",
   str "whois.netart-registrar.com",
   str "whois.networksolutions.com",
   str "whois.notsofamousnames.com",
   str "whois.oldworldaliases.com",
   str "whois.godaddy.com",
   str "whois.name.com",
   str "whois.nic.ru",
   str "whois.onlinenic.com",
   str "whois.dynanames.com",
   str "whois.myobnet.com",
   str "whois.22.cn",
   str "whois.35.com",
   str "whois.oregoneu.com",
   str "whois.625domains.com",
   str "whois.eNom415.com",
   str "whois.enom429.com",
   str "whois.hostway.com",
   str "whois.pairnic.com",
   str "whois.ourdomains.com",
   str "whois.2imagen.net"]

/-- Go `var DefaultWhois = NewWhoisChecker(DefaultServers)`. -/
def DefaultWhois : WhoisChecker := NewWhoisChecker DefaultServers

/-- Go `func NewChecker() Checker`: the `MultiChecker` it builds. -/
def NewChecker (world : World) : MultiChecker :=
  ((⟨[]⟩ : MultiChecker).CheckerFunc (returning (NSLookupChecker world))).Checker
    (DefaultWhois.toChecker world)

/-- One registration on a `MultiChecker` of a checker that is a pure predicate:
through `Checker` (as a `CheckerFunc` object) or through `CheckerFunc`. -/
inductive Registration
  | object (p : GoString → Bool)
  | function (p : GoString → Bool)

/-- The predicate a registration registers. -/
def Registration.pred : Registration → GoString → Bool
  | .object p => p
  | .function p => p

/-- Performs one registration. -/
def MultiChecker.register (m : MultiChecker) : Registration → MultiChecker
  | .object p => m.Checker (Domains.CheckerFunc (returning p))
  | .function p => m.CheckerFunc (returning p)

/-- The `MultiChecker` obtained from `&MultiChecker{}` by the registrations
`regs`, in order. -/
def MultiChecker.build (regs : List Registration) : MultiChecker :=
  regs.foldl MultiChecker.register ⟨[]⟩

/-- Number of checkers of `cs` in front of the first one that returns true for
`domain` (the length of `cs` when none does). -/
def beforeFirstPositive (cs : List Checker) (domain : GoString) : Nat :=
  (cs.takeWhile fun c => c.IsTaken domain != some true).length

/-- What holds of every state a `WhoisAny` call can reach. -/
structure Inv (n : Nat) (resp : Nat → Bytes × Option Error) (s : State) : Prop where
  /-- One goroutine slot for each server. -/
  size : s.tasks.length = n
  /-- A parked sender is a goroutine in its send, sending the conclusive
  response its `Whois` returned without error. -/
  queued : ∀ j r, (j, r) ∈ s.sendq →
    s.tasks[j]? = some .blocked ∧ r = (resp j).1 ∧ (resp j).2 = none ∧ conclusive r = true
  /-- No goroutine is parked twice. -/
  nodup : (s.sendq.map Prod.fst).Nodup
  /-- The goroutines the loop has not reached are not started. -/
  fresh : ∀ k, s.coord = .spawning k →
    ∀ j, k ≤ j → j < s.tasks.length → s.tasks[j]? = some .unspawned
  /-- A received result is the conclusive response of a goroutine whose send
  completed. -/
  received : ∀ res d t, s.coord = .returned res false d t →
    ∃ j, s.tasks[j]? = some .delivered ∧ res = (resp j).1 ∧ (resp j).2 = none ∧
      conclusive res = true
  /-- The timer branch returns nil, not before the timer is due. -/
  expired : ∀ res d t, s.coord = .returned res true d t → res = [] ∧ d ≤ t
  /-- The call returned in the past; its timer was due a second or more after
  the call began. -/
  past : ∀ res b d t, s.coord = .returned res b d t → t ≤ s.now ∧ Second ≤ d
  /-- While the caller is parked no sender is. -/
  parked : ∀ d, s.coord = .waiting d → s.sendq = [] ∧ Second ≤ d

/-- The time at which the timer of the `select` is due, once it exists. -/
def State.deadline (s : State) : Option Nat :=
  match s.coord with
  | .spawning _ => none
  | .waiting d => some d
  | .returned _ _ d _ => some d

/-- The caller has returned. -/
def State.done (s : State) : Bool :=
  match s.coord with
  | .returned _ _ _ _ => true
  | _ => false

/-- The response `r` of goroutine `i` is the one the call returns: the caller
received it, or the caller is still in its loop and `i` is the first parked
sender. -/
def Winning (i : Nat) (r : Bytes) (s : State) : Prop :=
  (∃ k q, s.coord = .spawning k ∧ s.sendq = (i, r) :: q) ∨
    ∃ d t, s.coord = .returned r false d t

/-! ## Sample inputs -/

/-- A registration record of 5000 bytes. -/
def record : Bytes := List.replicate 5000 65

/-- A network whose servers answer every query with `record` and close. -/
def recordNet : Net :=
  ⟨fun _ _ => .ok
    { write := fun _ => none, reads := fun _ => [record], readEnd := fun _ => none }⟩

/-- A network whose servers answer "No match for example.com" and close. -/
def noMatchNet : Net :=
  ⟨fun _ _ => .ok
    { write := fun _ => none,
      reads := fun _ => [str "No match for example.com"],
      readEnd := fun _ => none }⟩

/-- A fan-out engine with a single server. -/
def oneServer : WhoisChecker := NewWhoisChecker [str "whois.example"]

/-- A round of `oneServer` in which the server answers after the timer
delivered. -/
def lateAnswer : List Event := [.spawn, .select, .advance Second, .fire, .complete 0]

/-- Three checkers: the first returns false, the second true, the third panics. -/
def sampleCheckers : List Checker :=
  [⟨fun _ => some false⟩, ⟨fun _ => some true⟩, ⟨fun _ => none⟩]

/-- A world whose `nslookup` answers for every name and whose network is down. -/
def resolvingWorld : World :=
  { command := fun _ _ => (str "Server: 127.0.0.53\n\nNon-authoritative answer:\nName: x\n", none),
    net := ⟨fun _ _ => .error "network is unreachable"⟩,
    sched := [] }

/-- A network whose servers accept the query, send seven bytes and then reset
the connection. -/
def resettingNet : Net :=
  ⟨fun _ _ => .ok
    { write := fun _ => none,
      reads := fun _ => [str "Domain ", str "N"],
      readEnd := fun _ => some "read: connection reset by peer" }⟩

/-! ## Lemmas: `strings.Contains` -/

theorem contains_iff (s substr : GoString) : Contains s substr = true ↔ substr <:+: s := by
  induction s with
  | nil => simp [Contains, List.isEmpty_iff]
  | cons c s ih =>
    rw [Contains, Bool.or_eq_true, ih, List.infix_cons_iff, List.isPrefixOf_iff_prefix]

theorem conclusive_eq_true_iff (R : Bytes) :
    conclusive R = true ↔ R.length > 3000 ∧ ¬ str "No match" <:+: R := by
  unfold conclusive isTakenThreshold notFoundText
  rw [Bool.and_eq_true, decide_eq_true_iff, Bool.not_eq_true', ← Bool.not_eq_true,
    contains_iff]

theorem record_length : record.length = 5000 := by
  unfold record
  rw [List.length_replicate]

theorem record_no_marker : ¬ str "No match" <:+: record := by
  intro h
  have hm : (78 : UInt8) ∈ record := h.subset (by decide)
  have := List.eq_of_mem_replicate hm
  exact absurd this (by decide)

theorem record_conclusive : conclusive record = true :=
  (conclusive_eq_true_iff record).2 ⟨by rw [record_length]; decide, record_no_marker⟩

theorem whois_recordNet (domain server : GoString) :
    (Whois recordNet domain server).res = record ∧ (Whois recordNet domain server).err = none := by
  simp [Whois, recordNet, ReadAll]

/-! ## Lemmas: the composite policy -/

theorem build_checkers_aux (regs : List Registration) (m : MultiChecker) :
    (regs.foldl MultiChecker.register m).checkers =
      m.checkers ++ regs.map fun r => CheckerFunc (returning r.pred) := by
  induction regs generalizing m with
  | nil => simp
  | cons r regs ih =>
    rw [List.foldl_cons, ih]
    cases r <;>
      simp [MultiChecker.register, MultiChecker.Checker, MultiChecker.CheckerFunc,
        Registration.pred]

theorem build_checkers (regs : List Registration) :
    (MultiChecker.build regs).checkers = regs.map fun r => CheckerFunc (returning r.pred) := by
  simp [MultiChecker.build, build_checkers_aux]

theorem loop_returning (domain : GoString) (regs : List Registration) (i : Nat) :
    (MultiChecker.loop domain (regs.map fun r => CheckerFunc (returning r.pred)) i).value =
      some (regs.any fun r => r.pred domain) := by
  induction regs generalizing i with
  | nil => simp [MultiChecker.loop]
  | cons r regs ih =>
    simp only [List.map_cons, List.any_cons, MultiChecker.loop, CheckerFunc, returning]
    cases h : r.pred domain
    · simpa using ih (i + 1)
    · simp

theorem loop_invoked (domain : GoString) (cs : List Checker) (i : Nat)
    (h : ∀ c ∈ cs.take (beforeFirstPositive cs domain + 1), c.IsTaken domain ≠ none) :
    MultiChecker.loop domain cs i =
      ⟨List.range' i (min (beforeFirstPositive cs domain + 1) cs.length),
        some (decide (beforeFirstPositive cs domain < cs.length))⟩ := by
  induction cs generalizing i with
  | nil => simp [MultiChecker.loop, beforeFirstPositive]
  | cons c cs ih =>
    have hc : c.IsTaken domain ≠ none := h c (by simp)
    rcases hv : c.IsTaken domain with _ | b
    · exact absurd hv hc
    · cases b
      · have hk : beforeFirstPositive (c :: cs) domain = beforeFirstPositive cs domain + 1 := by
          simp [beforeFirstPositive, List.takeWhile_cons, hv]
        have h2 : ∀ c2 ∈ cs.take (beforeFirstPositive cs domain + 1), c2.IsTaken domain ≠ none := by
          intro c2 hc2
          apply h c2
          rw [hk, List.take_succ_cons]
          exact List.mem_cons_of_mem _ hc2
        rw [MultiChecker.loop, hv]
        simp only [ih (i + 1) h2, hk, List.length_cons]
        have e : min (beforeFirstPositive cs domain + 1 + 1) (cs.length + 1) =
            min (beforeFirstPositive cs domain + 1) cs.length + 1 := by omega
        rw [e, List.range'_succ]
        simp
      · have hk : beforeFirstPositive (c :: cs) domain = 0 := by
          simp [beforeFirstPositive, List.takeWhile_cons, hv]
        rw [MultiChecker.loop, hv]
        simp [hk]

/-! ## Lemmas: the fan-out engine -/

theorem inv_init (n : Nat) (resp : Nat → Bytes × Option Error) : Inv n resp (State.init n) := by
  constructor <;> simp +contextual [State.init, List.getElem?_replicate]

theorem inv_spawn (n : Nat) (resp : Nat → Bytes × Option Error) (s : State)
    (h : Inv n resp s) : Inv n resp (step n resp s .spawn) := by
  cases hc : s.coord with
  | spawning k =>
    by_cases hk : k < n
    · simp only [step, hc, hk, if_true]
      constructor
      · simpa using h.size
      · intro j r hjr
        obtain ⟨h1, h2⟩ := h.queued j r hjr
        refine ⟨?_, h2⟩
        have hne : k ≠ j := by
          rintro rfl
          have hlt : k < s.tasks.length := by
            rcases Nat.lt_or_ge k s.tasks.length with h | h
            · exact h
            · rw [List.getElem?_eq_none h] at h1; cases h1
          rw [h.fresh k hc k le_rfl hlt] at h1
          cases h1
        simpa [List.getElem?_set, hne] using h1
      · exact h.nodup
      · intro k2 hk2 j hj hlt
        simp only [Coord.spawning.injEq] at hk2
        subst hk2
        simp only [List.length_set] at hlt
        have := h.fresh k hc j (by omega) hlt
        simpa [List.getElem?_set, show k ≠ j by omega] using this
      · intro res d t hr; cases hr
      · intro res d t hr; cases hr
      · intro res b d t hr; cases hr
      · intro d hd; cases hd
    · simpa [step, hc, hk] using h
  | waiting d => simpa [step, hc] using h
  | returned res b d t => simpa [step, hc] using h

theorem lt_of_getElem?_eq_some {l : List Task} {i : Nat} {x : Task} (h : l[i]? = some x) :
    i < l.length := by
  rcases Nat.lt_or_ge i l.length with h1 | h1
  · exact h1
  · rw [List.getElem?_eq_none h1] at h; cases h

/-- Overwriting the entry of a running goroutine leaves the goroutines in any
other state alone. -/
theorem getElem?_set_running {l : List Task} {i j : Nat} {x y : Task}
    (hi : l[i]? = some .running) (hj : l[j]? = some y) (hy : y ≠ .running) :
    (l.set i x)[j]? = some y := by
  have hne : i ≠ j := by
    rintro rfl
    rw [hi] at hj
    exact hy (Option.some.inj hj).symm
  simpa [List.getElem?_set, hne] using hj

theorem getElem?_set_self {l : List Task} {i : Nat} {x y : Task} (hi : l[i]? = some y) :
    (l.set i x)[i]? = some x := by
  simp [List.getElem?_set, lt_of_getElem?_eq_some hi]

theorem inv_select (n : Nat) (resp : Nat → Bytes × Option Error) (s : State)
    (h : Inv n resp s) : Inv n resp (step n resp s .select) := by
  cases hc : s.coord with
  | spawning k =>
    by_cases hk : k < n
    · simpa [step, hc, hk] using h
    · cases hq : s.sendq with
      | nil =>
        simp only [step, hc, hk, if_false, hq]
        constructor
        · simpa using h.size
        · intro j r hjr; cases hjr
        · simp
        · intro k2 hk2; cases hk2
        · intro res d t hr; cases hr
        · intro res d t hr; cases hr
        · intro res b d t hr; cases hr
        · intro d hd
          simp only [Coord.waiting.injEq] at hd
          exact ⟨rfl, by omega⟩
      | cons head q =>
        obtain ⟨j, res⟩ := head
        simp only [step, hc, hk, if_false, hq]
        have hhead := h.queued j res (by rw [hq]; exact List.mem_cons_self _ _)
        have hnd := h.nodup
        rw [hq, List.map_cons, List.nodup_cons] at hnd
        constructor
        · simpa using h.size
        · intro j2 r2 hjr
          obtain ⟨h1, h2⟩ := h.queued j2 r2 (by rw [hq]; exact List.mem_cons_of_mem _ hjr)
          refine ⟨?_, h2⟩
          have hne : j ≠ j2 := by
            rintro rfl
            exact hnd.1 (List.mem_map.mpr ⟨(j, r2), hjr, rfl⟩)
          simpa [List.getElem?_set, hne] using h1
        · exact hnd.2
        · intro k2 hk2; cases hk2
        · intro res2 d t hr
          simp only [Coord.returned.injEq] at hr
          obtain ⟨rfl, -, -, -⟩ := hr
          exact ⟨j, getElem?_set_self hhead.1, hhead.2⟩
        · intro res2 d t hr
          simp only [Coord.returned.injEq] at hr
          exact absurd hr.2.1 (by decide)
        · intro res2 b d t hr
          simp only [Coord.returned.injEq] at hr
          obtain ⟨-, -, rfl, rfl⟩ := hr
          exact ⟨le_rfl, by omega⟩
        · intro d hd; cases hd
  | waiting d => simpa [step, hc] using h
  | returned res b d t => simpa [step, hc] using h

theorem inv_advance (n : Nat) (resp : Nat → Bytes × Option Error) (s : State) (dt : Nat)
    (h : Inv n resp s) : Inv n resp (step n resp s (.advance dt)) := by
  simp only [step]
  exact ⟨h.size, h.queued, h.nodup, h.fresh, h.received, h.expired,
    fun res b d t hr => ⟨Nat.le_add_right_of_le (h.past res b d t hr).1, (h.past res b d t hr).2⟩,
    h.parked⟩

theorem inv_fire (n : Nat) (resp : Nat → Bytes × Option Error) (s : State)
    (h : Inv n resp s) : Inv n resp (step n resp s .fire) := by
  cases hc : s.coord with
  | spawning k => simpa [step, hc] using h
  | waiting d =>
    by_cases hd : d ≤ s.now
    · simp only [step, hc, hd, if_true]
      constructor
      · simpa using h.size
      · exact h.queued
      · exact h.nodup
      · intro k2 hk2; cases hk2
      · intro res2 d2 t hr
        simp only [Coord.returned.injEq] at hr
        exact absurd hr.2.1 (by decide)
      · intro res2 d2 t hr
        simp only [Coord.returned.injEq] at hr
        obtain ⟨rfl, -, rfl, rfl⟩ := hr
        exact ⟨rfl, hd⟩
      · intro res2 b d2 t hr
        simp only [Coord.returned.injEq] at hr
        obtain ⟨-, -, rfl, rfl⟩ := hr
        exact ⟨le_rfl, (h.parked d hc).2⟩
      · intro d2 hd2; cases hd2
    · simpa [step, hc, hd] using h
  | returned res b d t => simpa [step, hc] using h

/-- A goroutine that ends without sending (`x` is `exited`) or parks elsewhere
than in the queue does not disturb the invariant, as long as the caller and
the queue are left alone. -/
theorem inv_set_exited (n : Nat) (resp : Nat → Bytes × Option Error) (s : State) (i : Nat)
    (h : Inv n resp s) (hi : s.tasks[i]? = some .running) :
    Inv n resp { s with tasks := s.tasks.set i .exited } := by
  constructor
  · simpa using h.size
  · intro j r hjr
    obtain ⟨h1, h2⟩ := h.queued j r hjr
    exact ⟨getElem?_set_running hi h1 (by decide), h2⟩
  · exact h.nodup
  · intro k hk j hj hlt
    simp only [List.length_set] at hlt
    exact getElem?_set_running hi (h.fresh k hk j hj hlt) (by decide)
  · intro res d t hr
    obtain ⟨j, h1, h2⟩ := h.received res d t hr
    exact ⟨j, getElem?_set_running hi h1 (by decide), h2⟩
  · exact h.expired
  · exact h.past
  · exact h.parked

theorem inv_set_blocked (n : Nat) (resp : Nat → Bytes × Option Error) (s : State) (i : Nat)
    (h : Inv n resp s) (hi : s.tasks[i]? = some .running)
    (he : (resp i).2 = none) (hc : conclusive (resp i).1 = true)
    (hw : ∀ d, s.coord ≠ .waiting d) :
    Inv n resp { s with tasks := s.tasks.set i .blocked,
                        sendq := s.sendq ++ [(i, (resp i).1)] } := by
  constructor
  · simpa using h.size
  · intro j r hjr
    rcases List.mem_append.mp hjr with hm | hm
    · obtain ⟨h1, h2⟩ := h.queued j r hm
      exact ⟨getElem?_set_running hi h1 (by decide), h2⟩
    · simp only [List.mem_singleton, Prod.mk.injEq] at hm
      obtain ⟨rfl, rfl⟩ := hm
      exact ⟨getElem?_set_self hi, rfl, he, hc⟩
  · simp only [List.map_append, List.map_cons, List.map_nil]
    apply List.Nodup.append h.nodup (List.nodup_singleton i)
    intro a ha hb
    simp only [List.mem_singleton] at hb
    subst hb
    obtain ⟨⟨j, r⟩, hm, rfl⟩ := List.mem_map.mp ha
    have := (h.queued j r hm).1
    simp only at this
    rw [hi] at this
    cases this
  · intro k hk j hj hlt
    simp only [List.length_set] at hlt
    exact getElem?_set_running hi (h.fresh k hk j hj hlt) (by decide)
  · intro res d t hr
    obtain ⟨j, h1, h2⟩ := h.received res d t hr
    exact ⟨j, getElem?_set_running hi h1 (by decide), h2⟩
  · exact h.expired
  · exact h.past
  · intro d hd
    exact absurd hd (hw d)

theorem inv_handoff (n : Nat) (resp : Nat → Bytes × Option Error) (s : State) (i d : Nat)
    (h : Inv n resp s) (hi : s.tasks[i]? = some .running)
    (he : (resp i).2 = none) (hc : conclusive (resp i).1 = true)
    (hw : s.coord = .waiting d) :
    Inv n resp { s with coord := .returned (resp i).1 false d s.now,
                        tasks := s.tasks.set i .delivered } := by
  have hq := (h.parked d hw).1
  constructor
  · simpa using h.size
  · intro j r hjr
    simp only [hq] at hjr
    cases hjr
  · exact h.nodup
  · intro k hk; cases hk
  · intro res d2 t hr
    simp only [Coord.returned.injEq] at hr
    obtain ⟨rfl, -, -, -⟩ := hr
    exact ⟨i, getElem?_set_self hi, rfl, he, hc⟩
  · intro res d2 t hr
    simp only [Coord.returned.injEq] at hr
    exact absurd hr.2.1 (by decide)
  · intro res b d2 t hr
    simp only [Coord.returned.injEq] at hr
    obtain ⟨-, -, rfl, rfl⟩ := hr
    exact ⟨le_rfl, (h.parked d hw).2⟩
  · intro d2 hd2; cases hd2

theorem inv_complete (n : Nat) (resp : Nat → Bytes × Option Error) (s : State) (i : Nat)
    (h : Inv n resp s) : Inv n resp (step n resp s (.complete i)) := by
  rcases ht : s.tasks[i]? with _ | t
  · simpa [step, ht] using h
  · cases t
    case running =>
      cases he : (resp i).2 with
      | some e =>
        simp only [step, ht, he, Option.isSome_some, if_true]
        exact inv_set_exited n resp s i h ht
      | none =>
        cases hcv : conclusive (resp i).1 with
        | false =>
          simp only [step, ht, he, Option.isSome_none, Bool.false_eq_true, if_false, hcv]
          exact inv_set_exited n resp s i h ht
        | true =>
          cases hco : s.coord with
          | waiting d =>
            simp only [step, ht, he, Option.isSome_none, Bool.false_eq_true, if_false, hcv,
              if_true, hco]
            exact inv_handoff n resp s i d h ht he hcv hco
          | spawning k =>
            simp only [step, ht, he, Option.isSome_none, Bool.false_eq_true, if_false, hcv,
              if_true, hco]
            have key := inv_set_blocked n resp s i h ht he hcv (by simp [hco])
            rw [hco] at key
            exact key
          | returned res b d t =>
            simp only [step, ht, he, Option.isSome_none, Bool.false_eq_true, if_false, hcv,
              if_true, hco]
            have key := inv_set_blocked n resp s i h ht he hcv (by simp [hco])
            rw [hco] at key
            exact key
    all_goals simpa [step, ht] using h

theorem inv_step (n : Nat) (resp : Nat → Bytes × Option Error) (s : State) (e : Event)
    (h : Inv n resp s) : Inv n resp (step n resp s e) := by
  cases e with
  | spawn => exact inv_spawn n resp s h
  | select => exact inv_select n resp s h
  | complete i => exact inv_complete n resp s i h
  | advance dt => exact inv_advance n resp s dt h
  | fire => exact inv_fire n resp s h

theorem inv_run (n : Nat) (resp : Nat → Bytes × Option Error) (sched : List Event) (s : State)
    (h : Inv n resp s) : Inv n resp (run n resp s sched) := by
  induction sched generalizing s with
  | nil => exact h
  | cons e sched ih => exact ih _ (inv_step n resp s e h)

theorem run_append (n : Nat) (resp : Nat → Bytes × Option Error) (s : State)
    (l1 l2 : List Event) : run n resp s (l1 ++ l2) = run n resp (run n resp s l1) l2 := by
  simp [run, List.foldl_append]

theorem inv_finish (n : Nat) (resp : Nat → Bytes × Option Error) (s : State)
    (h : Inv n resp s) : Inv n resp (finish n resp s) := by
  unfold finish
  exact inv_run n resp _ _ (inv_run n resp _ _ h)

theorem step_returned (n : Nat) (resp : Nat → Bytes × Option Error) (s : State) (e : Event)
    {r : Bytes} {b : Bool} {d t : Nat} (h : s.coord = .returned r b d t) :
    (step n resp s e).coord = .returned r b d t := by
  cases e with
  | complete i =>
    simp only [step]
    split
    · split_ifs <;> simp [h]
    · exact h
  | _ => simp [step, h]

theorem run_returned (n : Nat) (resp : Nat → Bytes × Option Error) (sched : List Event)
    (s : State) {r : Bytes} {b : Bool} {d t : Nat} (h : s.coord = .returned r b d t) :
    (run n resp s sched).coord = .returned r b d t := by
  induction sched generalizing s with
  | nil => exact h
  | cons e sched ih => exact ih _ (step_returned n resp s e h)

theorem winning_step (n : Nat) (resp : Nat → Bytes × Option Error) (s : State) (e : Event)
    {i : Nat} {r : Bytes} (h : Winning i r s) : Winning i r (step n resp s e) := by
  rcases h with ⟨k, q, hc, hq⟩ | ⟨d, t, hc⟩
  · cases e with
    | spawn =>
      by_cases hk : k < n
      · exact Or.inl ⟨k + 1, q, by simp [step, hc, hk], by simp [step, hc, hk, hq]⟩
      · exact Or.inl ⟨k, q, by simp [step, hc, hk], by simp [step, hc, hk, hq]⟩
    | select =>
      by_cases hk : k < n
      · exact Or.inl ⟨k, q, by simp [step, hc, hk], by simp [step, hc, hk, hq]⟩
      · exact Or.inr ⟨s.now + 1 * Second, s.now, by simp [step, hc, hk, hq]⟩
    | complete j =>
      simp only [step]
      split
      · split_ifs
        · exact Or.inl ⟨k, q, hc, hq⟩
        · exact Or.inl ⟨k, q ++ [(j, (resp j).1)], by simp [hc], by simp [hc, hq]⟩
        · exact Or.inl ⟨k, q, hc, hq⟩
      · exact Or.inl ⟨k, q, hc, hq⟩
    | advance dt => exact Or.inl ⟨k, q, by simp [step, hc], by simp [step, hq]⟩
    | fire => exact Or.inl ⟨k, q, by simp [step, hc], by simp [step, hc, hq]⟩
  · exact Or.inr ⟨d, t, step_returned n resp s e hc⟩

theorem winning_run (n : Nat) (resp : Nat → Bytes × Option Error) (sched : List Event)
    (s : State) {i : Nat} {r : Bytes} (h : Winning i r s) :
    Winning i r (run n resp s sched) := by
  induction sched generalizing s with
  | nil => exact h
  | cons e sched ih => exact ih _ (winning_step n resp s e h)

/-- The loop ends: after `m` iterations from position `k` the caller is at a
position that is past the last server when `k + m` is. -/
theorem run_spawns (n : Nat) (resp : Nat → Bytes × Option Error) (m : Nat) (s : State) (k : Nat)
    (h : s.coord = .spawning k) :
    ∃ k2, (run n resp s (List.replicate m .spawn)).coord = .spawning k2 ∧
      (n ≤ k + m → n ≤ k2) := by
  induction m generalizing s k with
  | zero => exact ⟨k, h, fun hn => by omega⟩
  | succ m ih =>
    rw [List.replicate_succ, run, List.foldl_cons]
    by_cases hk : k < n
    · obtain ⟨k2, h1, h2⟩ := ih (step n resp s .spawn) (k + 1) (by simp [step, h, hk])
      exact ⟨k2, h1, fun hn => h2 (by omega)⟩
    · obtain ⟨k2, h1, h2⟩ := ih (step n resp s .spawn) k (by simp [step, h, hk])
      exact ⟨k2, h1, fun _ => h2 (by omega)⟩

theorem run_spawns_of_not_spawning (n : Nat) (resp : Nat → Bytes × Option Error) (m : Nat)
    (s : State) (h : ∀ k, s.coord ≠ .spawning k) :
    run n resp s (List.replicate m .spawn) = s := by
  induction m with
  | zero => rfl
  | succ m ih =>
    rw [List.replicate_succ, run, List.foldl_cons]
    have e : step n resp s .spawn = s := by
      cases hc : s.coord with
      | spawning k => exact absurd hc (h k)
      | waiting d => simp [step, hc]
      | returned r b d t => simp [step, hc]
    rw [e]
    exact ih

/-- After the loop and the `select` the caller is parked or has returned. -/
theorem select_leaves_loop (n : Nat) (resp : Nat → Bytes × Option Error) (s : State) :
    ∀ k, (run n resp s (List.replicate n .spawn ++ [.select])).coord ≠ .spawning k := by
  intro k2
  rw [run_append]
  cases hc : s.coord with
  | spawning k =>
    obtain ⟨k3, h1, h2⟩ := run_spawns n resp n s k hc
    have hk3 : ¬ k3 < n := by have := h2 (by omega); omega
    generalize run n resp s (List.replicate n .spawn) = s2 at h1 ⊢
    cases hq : s2.sendq with
    | nil => simp [run, step, h1, hk3, hq]
    | cons head q => simp [run, step, h1, hk3, hq]
  | waiting d =>
    rw [run_spawns_of_not_spawning n resp n s (by simp [hc])]
    simp [run, step, hc]
  | returned r b d t =>
    rw [run_spawns_of_not_spawning n resp n s (by simp [hc])]
    simp [run, step, hc]

/-- Every call returns: `finish` ends in a state in which the caller has
returned. -/
theorem finish_done (n : Nat) (resp : Nat → Bytes × Option Error) (s : State) :
    (finish n resp s).done = true := by
  unfold finish
  have h := select_leaves_loop n resp s
  generalize run n resp s (List.replicate n .spawn ++ [.select]) = s1 at h ⊢
  cases hc : s1.coord with
  | spawning k => exact absurd hc (h k)
  | waiting d =>
    have hd : d ≤ s1.now + (d - s1.now) := by omega
    simp [run, step, hc, State.remaining, State.done, hd]
  | returned r b d t =>
    have := run_returned n resp [.advance s1.remaining, .fire] s1 hc
    simp [State.done, this]

theorem winning_finish (n : Nat) (resp : Nat → Bytes × Option Error) (s : State)
    {i : Nat} {r : Bytes} (h : Winning i r s) : (finish n resp s).result = r := by
  have hd := finish_done n resp s
  have hw : Winning i r (finish n resp s) := by
    unfold finish
    exact winning_run n resp _ _ (winning_run n resp _ _ h)
  rcases hw with ⟨k, q, hc, -⟩ | ⟨d, t, hc⟩
  · simp [State.done, hc] at hd
  · simp [State.result, hc]

/-- Once the caller has returned, a goroutine that is not inside `Whois` stays
where it is, whatever happens. -/
theorem settled_step (n : Nat) (resp : Nat → Bytes × Option Error) (s : State) (e : Event)
    {i : Nat} {x : Task} (hd : s.done = true) (hi : s.tasks[i]? = some x) (hx : x ≠ .running) :
    (step n resp s e).done = true ∧ (step n resp s e).tasks[i]? = some x := by
  cases hc : s.coord with
  | spawning k => simp [State.done, hc] at hd
  | waiting d => simp [State.done, hc] at hd
  | returned r b d t =>
    refine ⟨by simp [State.done, step_returned n resp s e hc], ?_⟩
    cases e with
    | complete j =>
      simp only [step]
      split
      · rename_i hj
        split_ifs
        · exact getElem?_set_running hj hi hx
        · simp only [hc]
          exact getElem?_set_running hj hi hx
        · exact getElem?_set_running hj hi hx
      · exact hi
    | _ => simp [step, hc, hi]

theorem settled_run (n : Nat) (resp : Nat → Bytes × Option Error) (sched : List Event)
    (s : State) {i : Nat} {x : Task} (hd : s.done = true) (hi : s.tasks[i]? = some x)
    (hx : x ≠ .running) : (run n resp s sched).tasks[i]? = some x := by
  induction sched generalizing s with
  | nil => exact hi
  | cons e sched ih =>
    exact ih _ (settled_step n resp s e hd hi hx).1 (settled_step n resp s e hd hi hx).2

theorem reach_append (w : WhoisChecker) (net : Net) (domain : GoString) (l1 l2 : List Event) :
    w.reach net domain (l1 ++ l2) =
      run w.servers.length (w.resp net domain) (w.reach net domain l1) l2 := by
  simp [WhoisChecker.reach, run_append]

theorem inv_reach (w : WhoisChecker) (net : Net) (domain : GoString) (sched : List Event) :
    Inv w.servers.length (w.resp net domain) (w.reach net domain sched) :=
  inv_run _ _ _ _ (inv_init _ _)

/-- A goroutine whose conclusive response arrives when the caller has not
returned and no sender is parked wins the round. -/
theorem winning_complete (n : Nat) (resp : Nat → Bytes × Option Error) (s : State) (i : Nat)
    (hrun : s.tasks[i]? = some .running) (herr : (resp i).2 = none)
    (hconc : conclusive (resp i).1 = true) (hq : s.sendq = []) (hd : s.done = false) :
    Winning i (resp i).1 (step n resp s (.complete i)) := by
  cases hc : s.coord with
  | spawning k =>
    exact Or.inl ⟨k, [], by simp [step, hrun, herr, hconc, hc],
      by simp [step, hrun, herr, hconc, hc, hq]⟩
  | waiting d => exact Or.inr ⟨d, s.now, by simp [step, hrun, herr, hconc, hc]⟩
  | returned r b d t => simp [State.done, hc] at hd

/-- What a goroutine does when its `Whois` returns after the caller did: it
parks in its send when the response is conclusive and ends otherwise; in both
cases it stays there. -/
theorem late_complete (n : Nat) (resp : Nat → Bytes × Option Error) (s : State) (i : Nat)
    (post : List Event) (hd : s.done = true) (hrun : s.tasks[i]? = some .running) :
    (run n resp s (.complete i :: post)).tasks[i]? =
      some (if (resp i).2 = none ∧ conclusive (resp i).1 = true then .blocked else .exited) := by
  rw [run, List.foldl_cons]
  have hd2 : (step n resp s (.complete i)).done = true := by
    cases hc : s.coord with
    | spawning k => simp [State.done, hc] at hd
    | waiting d => simp [State.done, hc] at hd
    | returned r b d t => simp [State.done, step_returned n resp s (.complete i) hc]
  cases hc : s.coord with
  | spawning k => simp [State.done, hc] at hd
  | waiting d => simp [State.done, hc] at hd
  | returned r b d t =>
    cases he : (resp i).2 with
    | some e =>
      have h1 : (step n resp s (.complete i)).tasks[i]? = some .exited := by
        simp only [step, hrun, he, Option.isSome_some, if_true]
        exact getElem?_set_self hrun
      simpa using settled_run n resp post _ hd2 h1 (by decide)
    | none =>
      cases hcv : conclusive (resp i).1 with
      | false =>
        have h1 : (step n resp s (.complete i)).tasks[i]? = some .exited := by
          simp only [step, hrun, he, Option.isSome_none, Bool.false_eq_true, if_false, hcv]
          exact getElem?_set_self hrun
        simpa using settled_run n resp post _ hd2 h1 (by decide)
      | true =>
        have h1 : (step n resp s (.complete i)).tasks[i]? = some .blocked := by
          simp only [step, hrun, he, Option.isSome_none, Bool.false_eq_true, if_false, hcv,
            if_true, hc]
          exact getElem?_set_self hrun
        simpa using settled_run n resp post _ hd2 h1 (by decide)

/-! ## Theorems: the composite policy and the DNS probe -/

/-- C1: a `MultiChecker` built from `&MultiChecker{}` by any sequence of
registrations of pure predicates, through `Checker` or through `CheckerFunc`,
returns true for a domain exactly when some registered predicate is true of
it, and returns false exactly when all are false; with nothing registered it
returns false. -/
theorem multiChecker_isTaken_iff (regs : List Registration) (domain : GoString) :
    ((MultiChecker.build regs).IsTaken domain = some true ↔
        ∃ r ∈ regs, r.pred domain = true) ∧
    ((MultiChecker.build regs).IsTaken domain = some false ↔
        ∀ r ∈ regs, r.pred domain = false) ∧
    (MultiChecker.build []).IsTaken domain = some false := by
  have key : ∀ rs : List Registration, (MultiChecker.build rs).IsTaken domain =
      some (rs.any fun r => r.pred domain) := by
    intro rs
    rw [MultiChecker.IsTaken, MultiChecker.call, build_checkers, loop_returning]
  refine ⟨?_, ?_, ?_⟩
  · rw [key]; simp
  · rw [key]; simp
  · rw [key]; simp

/-- C2: `MultiChecker.IsTaken` short-circuits in registration order.  When no
checker up to and including the first positive one panics, the checkers it
invokes are positions `0, 1, ..., k` of the list, where `k` is the position of
the first checker that returns true, or all positions when none does, each once
and in order; it returns true exactly when there is a positive checker. -/
theorem multiChecker_short_circuit (cs : List Checker) (domain : GoString)
    (h : ∀ c ∈ cs.take (beforeFirstPositive cs domain + 1), c.IsTaken domain ≠ none) :
    (MultiChecker.call ⟨cs⟩ domain).invoked =
        List.range (min (beforeFirstPositive cs domain + 1) cs.length) ∧
    (MultiChecker.mk cs).IsTaken domain =
        some (decide (beforeFirstPositive cs domain < cs.length)) ∧
    ∀ j, beforeFirstPositive cs domain < j → j ∉ (MultiChecker.call ⟨cs⟩ domain).invoked := by
  have e := loop_invoked domain cs 0 h
  simp only [MultiChecker.IsTaken, MultiChecker.call, e, List.range_eq_range', true_and]
  intro j hj
  simp only [List.mem_range'_1, not_and, not_lt]
  omega

/-- C2, on the checkers [false, true, panics]: the call returns true having
invoked the first two checkers only. -/
theorem multiChecker_short_circuit_witness :
    (MultiChecker.call ⟨sampleCheckers⟩ (str "example.com")).invoked = [0, 1] ∧
    (MultiChecker.mk sampleCheckers).IsTaken (str "example.com") = some true ∧
    2 ∉ (MultiChecker.call ⟨sampleCheckers⟩ (str "example.com")).invoked := by
  have h := multiChecker_short_circuit sampleCheckers (str "example.com") (by decide)
  have hk : beforeFirstPositive sampleCheckers (str "example.com") = 1 := by decide
  refine ⟨?_, ?_, h.2.2 2 (by rw [hk]; decide)⟩
  · rw [h.1, hk]; decide
  · rw [h.2.1, hk]; decide

/-- C6: `NSLookupChecker` returns true exactly when `NSLookup` reports no
error and its combined output contains "Non-authoritative answer"; when
`NSLookup` reports an error the result is false whatever the output is.  The
result is a plain boolean: no error reaches the caller. -/
theorem nslookupChecker_iff (world : World) (domain : GoString) :
    (NSLookupChecker world domain = true ↔
      (NSLookup world domain).2 = none ∧
        str "Non-authoritative answer" <:+: (NSLookup world domain).1) ∧
    (∀ e, (NSLookup world domain).2 = some e → NSLookupChecker world domain = false) ∧
    NSLookup world domain = world.command (str "nslookup") domain := by
  refine ⟨?_, ?_, rfl⟩
  · unfold NSLookupChecker
    cases h : (NSLookup world domain).2 <;> simp [contains_iff]
  · intro e he
    simp [NSLookupChecker, he]

/-- C7: the checker built by `NewChecker` holds exactly two checkers, the DNS
probe `NSLookupChecker` first and then `DefaultWhois`, which is built from
`DefaultServers`.  Its result is `NSLookupChecker(domain) ||
DefaultWhois.IsTaken(domain)`, and when the DNS probe returns true the result
is true and only the checker at position 0 was invoked, so the fan-out engine
was not. -/
theorem newChecker_spec (world : World) (domain : GoString) :
    (NewChecker world).checkers =
        [CheckerFunc (returning (NSLookupChecker world)), DefaultWhois.toChecker world] ∧
    DefaultWhois = NewWhoisChecker DefaultServers ∧
    (NewChecker world).IsTaken domain =
        some (NSLookupChecker world domain ||
          DefaultWhois.IsTaken world.net world.sched domain) ∧
    (NSLookupChecker world domain = true →
        (NewChecker world).IsTaken domain = some true ∧
        ((NewChecker world).call domain).invoked = [0]) := by
  have hc : (NewChecker world).checkers =
      [CheckerFunc (returning (NSLookupChecker world)), DefaultWhois.toChecker world] := rfl
  refine ⟨hc, rfl, ?_, ?_⟩
  · simp only [MultiChecker.IsTaken, MultiChecker.call, hc, MultiChecker.loop, CheckerFunc,
      returning, WhoisChecker.toChecker]
    cases NSLookupChecker world domain
    · cases DefaultWhois.IsTaken world.net world.sched domain <;> rfl
    · rfl
  · intro h
    simp only [MultiChecker.IsTaken, MultiChecker.call, hc, MultiChecker.loop, CheckerFunc,
      returning, h, and_self]

/-- C7, for "taken-example.com" in a world whose resolver answers: the DNS
probe is positive, the result is true and only the DNS probe was invoked. -/
theorem newChecker_spec_witness :
    NSLookupChecker resolvingWorld (str "taken-example.com") = true ∧
    (NewChecker resolvingWorld).IsTaken (str "taken-example.com") = some true ∧
    ((NewChecker resolvingWorld).call (str "taken-example.com")).invoked = [0] :=
  have h : NSLookupChecker resolvingWorld (str "taken-example.com") = true := by decide
  ⟨h, (newChecker_spec resolvingWorld (str "taken-example.com")).2.2.2 h⟩

/-! ## Theorems: the response heuristic -/

/-- C3: the test `find` applies in `WhoisAny` holds of a response `R` exactly
when `len(R) > 3000` and "No match" does not occur in `R`.  So 3000 bytes are
not conclusive, 3001 bytes without the marker are, and no response containing
the marker is.  A goroutine whose `Whois` returned `R` without error ends
without publishing exactly when the test fails. -/
theorem conclusive_iff (R : Bytes) :
    (conclusive R = true ↔ R.length > 3000 ∧ ¬ str "No match" <:+: R) ∧
    (R.length = 3000 → conclusive R = false) ∧
    (R.length = 3001 → ¬ str "No match" <:+: R → conclusive R = true) ∧
    (str "No match" <:+: R → conclusive R = false) ∧
    (∀ (n : Nat) (resp : Nat → Bytes × Option Error) (s : State) (i : Nat),
      s.tasks[i]? = some .running → resp i = (R, none) →
      ((step n resp s (.complete i)).tasks[i]? = some .exited ↔ conclusive R = false)) := by
  have key := conclusive_eq_true_iff R
  refine ⟨key, ?_, ?_, ?_, ?_⟩
  · intro h
    rw [← Bool.not_eq_true, key]
    omega
  · intro h hn
    rw [key]
    exact ⟨by omega, hn⟩
  · intro hm
    rw [← Bool.not_eq_true, key]
    exact fun h => h.2 hm
  · intro n resp s i hi hr
    have hlt : i < s.tasks.length := by
      rcases Nat.lt_or_ge i s.tasks.length with h | h
      · exact h
      · rw [List.getElem?_eq_none h] at hi; cases hi
    simp only [step, hi, hr, Option.isSome_none, Bool.false_eq_true, if_false]
    cases hc : conclusive R
    · simp [List.getElem?_set, hlt]
    · cases s.coord <;> simp [List.getElem?_set, hlt]

/-! ## Theorems: the transport primitive -/

/-- C9, as stated, fails: when the read fails after some bytes arrived, `Whois`
returns the failure together with those bytes. -/
theorem whois_read_error_keeps_payload :
    (Whois resettingNet (str "example.com") (str "whois.example")).err =
        some "read: connection reset by peer" ∧
    (Whois resettingNet (str "example.com") (str "whois.example")).res = str "Domain N" ∧
    (Whois resettingNet (str "example.com") (str "whois.example")).res ≠ [] := by
  decide

/-- C9, amended: `Whois` dials `server + ":43"` over tcp, writes exactly
`domain + "\r\n"`, and reads until the peer closes or the read fails.  A failed
dial gives the failure with no payload and nothing else is attempted; a failed
write gives the failure with no payload and no read is attempted; otherwise the
result is all the bytes read together with the way the read ended, so the
failure of a read comes with the bytes read before it.  The error is nil
exactly when dial, write and read all succeed. -/
theorem whois_outcome (net : Net) (domain server : GoString) :
    (∀ e, net.dial (str "tcp") (server ++ str ":43") = .error e →
      (Whois net domain server).res = [] ∧ (Whois net domain server).err = some e ∧
      (Whois net domain server).trace = [.dial (str "tcp") (server ++ str ":43") false]) ∧
    (∀ conn e, net.dial (str "tcp") (server ++ str ":43") = .ok conn →
      conn.write (domain ++ [13, 10]) = some e →
      (Whois net domain server).res = [] ∧ (Whois net domain server).err = some e ∧
      (Whois net domain server).trace =
        [.dial (str "tcp") (server ++ str ":43") true, .write (domain ++ [13, 10]), .close]) ∧
    (∀ conn, net.dial (str "tcp") (server ++ str ":43") = .ok conn →
      conn.write (domain ++ [13, 10]) = none →
      (Whois net domain server).res = (conn.reads (domain ++ [13, 10])).flatten ∧
      (Whois net domain server).err = conn.readEnd (domain ++ [13, 10]) ∧
      (Whois net domain server).trace =
        [.dial (str "tcp") (server ++ str ":43") true, .write (domain ++ [13, 10]),
          .readAll, .close]) ∧
    ((Whois net domain server).err = none ↔
      ∃ conn, net.dial (str "tcp") (server ++ str ":43") = .ok conn ∧
        conn.write (domain ++ [13, 10]) = none ∧ conn.readEnd (domain ++ [13, 10]) = none) := by
  have crlf : str "\r\n" = [13, 10] := by decide
  refine ⟨?_, ?_, ?_, ?_⟩
  · intro e hd
    simp [Whois, hd]
  · intro conn e hd hw
    simp [Whois, hd, crlf, hw]
  · intro conn hd hw
    simp [Whois, hd, crlf, hw, ReadAll]
  · unfold Whois
    rw [crlf]
    cases hd : net.dial (str "tcp") (server ++ str ":43") with
    | error e => simp
    | ok conn =>
      cases hw : conn.write (domain ++ [13, 10]) with
      | some e => simp [hw]
      | none => simp [hw, ReadAll]

/-- C10: a call of `Whois` opens at most one connection and closes what it
opened: when the dial succeeds the connection is closed exactly once, as the
last thing the call does, whether the write failed, the read failed or both
succeeded; when the dial fails nothing is opened and nothing closed. -/
theorem whois_closes_connection (net : Net) (domain server : GoString) :
    opened (Whois net domain server).trace ≤ 1 ∧
    closed (Whois net domain server).trace = opened (Whois net domain server).trace ∧
    (∀ conn, net.dial (str "tcp") (server ++ str ":43") = .ok conn →
      opened (Whois net domain server).trace = 1 ∧
      closed (Whois net domain server).trace = 1 ∧
      (Whois net domain server).trace.getLast? = some .close) ∧
    (∀ e, net.dial (str "tcp") (server ++ str ":43") = .error e →
      opened (Whois net domain server).trace = 0 ∧
      closed (Whois net domain server).trace = 0) := by
  unfold Whois
  cases hd : net.dial (str "tcp") (server ++ str ":43") with
  | error e => simp [opened, closed]
  | ok conn =>
    cases hw : conn.write (domain ++ str "\r\n") with
    | some e => simp [opened, closed, hw]
    | none => simp [opened, closed, hw]

/-! ## Theorems: the fan-out engine -/

/-- C4: take a round of `WhoisAny` and the moment server `i`'s `Whois` returns
in it.  If the response is conclusive (no error, more than 3000 bytes, no
"No match"), the timer of the `select` is not yet due, and no other goroutine
has reached its send before, then `WhoisAny` returns exactly that response and
`IsTaken` returns true, whatever happens afterwards, other conclusive
responses included: the first response published is the result. -/
theorem whoisAny_first_conclusive (w : WhoisChecker) (net : Net) (domain : GoString)
    (pre post : List Event) (i : Nat)
    (hrun : (w.reach net domain pre).tasks[i]? = some .running)
    (herr : (Whois net domain (w.servers.getD i [])).err = none)
    (hlen : (Whois net domain (w.servers.getD i [])).res.length > 3000)
    (hnm : ¬ str "No match" <:+: (Whois net domain (w.servers.getD i [])).res)
    (htime : ∀ d, (w.reach net domain pre).deadline = some d → (w.reach net domain pre).now < d)
    (hfirst : ∀ j : Nat, (w.reach net domain pre).tasks[j]? ≠ some Task.blocked ∧
      (w.reach net domain pre).tasks[j]? ≠ some Task.delivered) :
    w.WhoisAny net (pre ++ .complete i :: post) domain =
        (Whois net domain (w.servers.getD i [])).res ∧
    w.IsTaken net (pre ++ .complete i :: post) domain = true := by
  have hinv := inv_reach w net domain pre
  have hconc : conclusive (w.resp net domain i).1 = true :=
    (conclusive_eq_true_iff _).2 ⟨hlen, hnm⟩
  have hq : (w.reach net domain pre).sendq = [] := by
    cases hq : (w.reach net domain pre).sendq with
    | nil => rfl
    | cons head q =>
      have := hinv.queued head.1 head.2 (by rw [hq]; exact List.mem_cons_self _ _)
      exact absurd this.1 (hfirst head.1).1
  have hd : (w.reach net domain pre).done = false := by
    cases hc : (w.reach net domain pre).coord with
    | spawning k => simp [State.done, hc]
    | waiting d => simp [State.done, hc]
    | returned r b d t =>
      exfalso
      cases b with
      | false =>
        obtain ⟨j, hj, -⟩ := hinv.received r d t hc
        exact (hfirst j).2 hj
      | true =>
        have h1 := (hinv.expired r d t hc).2
        have h2 := (hinv.past r true d t hc).1
        have h3 := htime d (by simp [State.deadline, hc])
        omega
  have hwin := winning_complete w.servers.length (w.resp net domain) _ i hrun herr hconc hq hd
  have hres : w.WhoisAny net (pre ++ .complete i :: post) domain =
      (Whois net domain (w.servers.getD i [])).res := by
    unfold WhoisChecker.WhoisAny WhoisChecker.exec
    rw [reach_append, run, List.foldl_cons]
    exact winning_finish _ _ _ (winning_run _ _ post _ hwin)
  refine ⟨hres, ?_⟩
  unfold WhoisChecker.IsTaken
  rw [hres]
  exact decide_eq_true (by omega)

/-- C4, on one server that answers "example.com" with 5000 bytes free of
"No match": `WhoisAny` returns the 5000 bytes and `IsTaken` returns true. -/
theorem whoisAny_first_conclusive_witness :
    oneServer.WhoisAny recordNet [.spawn, .select, .complete 0] (str "example.com") = record ∧
    oneServer.IsTaken recordNet [.spawn, .select, .complete 0] (str "example.com") = true := by
  have h := whoisAny_first_conclusive oneServer recordNet (str "example.com")
    [.spawn, .select] [] 0 (by decide) (whois_recordNet _ _).2
    (by rw [(whois_recordNet _ _).1, record_length]; decide)
    (by rw [(whois_recordNet _ _).1]; exact record_no_marker)
    (by intro d hd
        have e : (oneServer.reach recordNet (str "example.com") [.spawn, .select]).deadline =
            some Second := by decide
        have e2 : (oneServer.reach recordNet (str "example.com") [.spawn, .select]).now = 0 := by
          decide
        rw [e] at hd
        rw [e2, ← Option.some.inj hd]
        decide)
    (by intro j
        have e : (oneServer.reach recordNet (str "example.com") [.spawn, .select]).tasks =
            [.running] := by decide
        rw [e]
        rcases j with _ | j <;> simp)
  rw [(whois_recordNet _ _).1] at h
  exact h

/-- C5: in every round of `WhoisAny`, if no server yields a conclusive
response (no server at all, every `Whois` fails, or every response that arrives
has at most 3000 bytes or contains "No match"), the call returns nil through
the timer branch, at a time not before the timer is due, which is a second or
more after the call began, and `IsTaken` returns false.  Conversely `IsTaken`
returns true only if some server of the list returned a conclusive response. -/
theorem whoisAny_inconclusive (w : WhoisChecker) (net : Net) (sched : List Event)
    (domain : GoString) :
    ((∀ i, i < w.servers.length → (Whois net domain (w.servers.getD i [])).err = none →
        (Whois net domain (w.servers.getD i [])).res.length > 3000 →
        str "No match" <:+: (Whois net domain (w.servers.getD i [])).res) →
      (∃ d t, (w.exec net sched domain).coord = .returned [] true d t ∧ d ≤ t ∧ Second ≤ d) ∧
      w.WhoisAny net sched domain = [] ∧
      w.IsTaken net sched domain = false) ∧
    (w.IsTaken net sched domain = true →
      ∃ i, i < w.servers.length ∧ (Whois net domain (w.servers.getD i [])).err = none ∧
        (Whois net domain (w.servers.getD i [])).res.length > 3000 ∧
        ¬ str "No match" <:+: (Whois net domain (w.servers.getD i [])).res) := by
  have hinv : Inv w.servers.length (w.resp net domain) (w.exec net sched domain) :=
    inv_finish _ _ _ (inv_reach w net domain sched)
  have hdone : (w.exec net sched domain).done = true := finish_done _ _ _
  have hrecv : ∀ r d t, (w.exec net sched domain).coord = .returned r false d t →
      ∃ i, i < w.servers.length ∧ (Whois net domain (w.servers.getD i [])).err = none ∧
        (Whois net domain (w.servers.getD i [])).res.length > 3000 ∧
        ¬ str "No match" <:+: (Whois net domain (w.servers.getD i [])).res := by
    intro r d t hc
    obtain ⟨j, hj, hr, he, hcv⟩ := hinv.received r d t hc
    have hlt := lt_of_getElem?_eq_some hj
    rw [hinv.size] at hlt
    rw [hr] at hcv
    exact ⟨j, hlt, he, (conclusive_eq_true_iff _).1 hcv⟩
  constructor
  · intro h
    cases hc : (w.exec net sched domain).coord with
    | spawning k => simp [State.done, hc] at hdone
    | waiting d => simp [State.done, hc] at hdone
    | returned r b d t =>
      cases b with
      | false =>
        obtain ⟨i, hi, he, hl, hn⟩ := hrecv r d t hc
        exact absurd (h i hi he hl) hn
      | true =>
        obtain ⟨rfl, hdt⟩ := hinv.expired r d t hc
        have hsec := (hinv.past [] true d t hc).2
        refine ⟨⟨d, t, rfl, hdt, hsec⟩, ?_, ?_⟩
        · simp [WhoisChecker.WhoisAny, State.result, hc]
        · simp [WhoisChecker.IsTaken, WhoisChecker.WhoisAny, State.result, hc]
  · intro ht
    cases hc : (w.exec net sched domain).coord with
    | spawning k => simp [State.done, hc] at hdone
    | waiting d => simp [State.done, hc] at hdone
    | returned r b d t =>
      cases b with
      | false => exact hrecv r d t hc
      | true =>
        obtain ⟨rfl, -⟩ := hinv.expired r d t hc
        simp [WhoisChecker.IsTaken, WhoisChecker.WhoisAny, State.result, hc] at ht

/-- C5, on one server that answers "No match for example.com": `WhoisAny`
returns nil through the timer branch and `IsTaken` returns false. -/
theorem whoisAny_inconclusive_witness :
    (∃ d t, (oneServer.exec noMatchNet [.spawn, .select, .complete 0]
        (str "example.com")).coord = .returned [] true d t ∧ d ≤ t ∧ Second ≤ d) ∧
    oneServer.WhoisAny noMatchNet [.spawn, .select, .complete 0] (str "example.com") = [] ∧
    oneServer.IsTaken noMatchNet [.spawn, .select, .complete 0] (str "example.com") = false :=
  (whoisAny_inconclusive oneServer noMatchNet [.spawn, .select, .complete 0]
    (str "example.com")).1 (by
      intro i hi _ hl
      exact absurd hl (by
        have e : i = 0 := by
          have : oneServer.servers.length = 1 := rfl
          omega
        subst e
        decide))

/-- C8, as stated, fails: with one server whose conclusive response arrives
after the timer delivered, the caller has returned and the goroutine is parked
in its send on `found` after every continuation of the round. -/
theorem whoisAny_abandoned_sender_parked :
    (oneServer.reach recordNet (str "example.com") [.spawn, .select, .advance Second, .fire]).done
        = true ∧
    (Whois recordNet (str "example.com") (oneServer.servers.getD 0 [])).err = none ∧
    conclusive (Whois recordNet (str "example.com") (oneServer.servers.getD 0 [])).res = true ∧
    ∀ post, (oneServer.reach recordNet (str "example.com") (lateAnswer ++ post)).tasks[0]? =
      some .blocked := by
  have hd : (oneServer.reach recordNet (str "example.com")
      [.spawn, .select, .advance Second, .fire]).done = true := by decide
  have hr : (oneServer.reach recordNet (str "example.com")
      [.spawn, .select, .advance Second, .fire]).tasks[0]? = some .running := by decide
  have hc : conclusive (Whois recordNet (str "example.com") (oneServer.servers.getD 0 [])).res
      = true := by
    rw [(whois_recordNet _ _).1]; exact record_conclusive
  refine ⟨hd, (whois_recordNet _ _).2, hc, ?_⟩
  intro post
  have e : lateAnswer ++ post =
      [.spawn, .select, .advance Second, .fire] ++ (.complete 0 :: post) := rfl
  rw [e, reach_append, late_complete _ _ _ 0 post hd hr]
  have he : (oneServer.resp recordNet (str "example.com") 0).2 = none :=
    (whois_recordNet (str "example.com") (oneServer.servers.getD 0 [])).2
  have hc2 : conclusive (oneServer.resp recordNet (str "example.com") 0).1 = true := hc
  simp [he, hc2]

/-- C8, amended: when the `Whois` of server `i` returns after the caller of
`WhoisAny` has returned, the goroutine parks in its send on `found` if the
response is conclusive, and stays parked whatever happens next; if `Whois`
failed or the response is not conclusive the goroutine ends. -/
theorem whoisAny_late_sender (w : WhoisChecker) (net : Net) (domain : GoString)
    (pre post : List Event) (i : Nat)
    (hdone : (w.reach net domain pre).done = true)
    (hrun : (w.reach net domain pre).tasks[i]? = some .running) :
    ((Whois net domain (w.servers.getD i [])).err = none ∧
      (Whois net domain (w.servers.getD i [])).res.length > 3000 ∧
      ¬ str "No match" <:+: (Whois net domain (w.servers.getD i [])).res →
      (w.reach net domain (pre ++ .complete i :: post)).tasks[i]? = some .blocked) ∧
    (¬ ((Whois net domain (w.servers.getD i [])).err = none ∧
      (Whois net domain (w.servers.getD i [])).res.length > 3000 ∧
      ¬ str "No match" <:+: (Whois net domain (w.servers.getD i [])).res) →
      (w.reach net domain (pre ++ .complete i :: post)).tasks[i]? = some .exited) := by
  have key := late_complete w.servers.length (w.resp net domain) _ i post hdone hrun
  rw [← reach_append] at key
  have hiff : ((w.resp net domain i).2 = none ∧ conclusive (w.resp net domain i).1 = true) ↔
      ((Whois net domain (w.servers.getD i [])).err = none ∧
        (Whois net domain (w.servers.getD i [])).res.length > 3000 ∧
        ¬ str "No match" <:+: (Whois net domain (w.servers.getD i [])).res) := by
    rw [conclusive_eq_true_iff]
    rfl
  rw [key]
  constructor
  · intro h
    rw [if_pos (hiff.2 h)]
  · intro h
    rw [if_neg (fun h2 => h (hiff.1 h2))]

/-- C8 amended, on one server whose 5000 byte record arrives after the timer
delivered: the goroutine is parked in its send. -/
theorem whoisAny_late_sender_witness :
    (oneServer.reach recordNet (str "example.com")
      ([.spawn, .select, .advance Second, .fire] ++ [.complete 0])).tasks[0]? = some .blocked :=
  (whoisAny_late_sender oneServer recordNet (str "example.com")
    [.spawn, .select, .advance Second, .fire] [] 0 (by decide) (by decide)).1
    ⟨(whois_recordNet _ _).2, by rw [(whois_recordNet _ _).1, record_length]; decide,
      by rw [(whois_recordNet _ _).1]; exact record_no_marker⟩

end Domains
